import Mathlib

/-!
Verification of the afire HTTP server engine (repository kiliplabs/firefightvn).

Rust strings are modelled as `List Char`; the handful of `str` operations the
code uses (`split`, `trim`, `to_ascii_lowercase`, …) are re-implemented
structurally so that every definition is executable and kernel-decidable.
Machine integers that matter (`u8` in the URL codec) are modelled as `Nat`
with explicit `% 256` where Rust truncates.
-/

namespace Afire

/-- A Rust `String` / `&str`, modelled as its character list. -/
abbrev Str := List Char

/-- Rust `str::split(sep)` for a one-character separator: splitting the empty
string yields one empty piece, and every separator occurrence starts a new
piece (`"/a/".split('/') = ["", "a", ""]`). -/
def splitOnChar (sep : Char) : Str → List Str
  | [] => [[]]
  | c :: rest =>
    if c = sep then [] :: splitOnChar sep rest
    else
      match splitOnChar sep rest with
      | [] => [[c]]
      | s :: ss => (c :: s) :: ss

/-- Rust `char::is_whitespace` restricted to the ASCII whitespace the tests
exercise (space, tab, CR, LF); header lines never carry other whitespace. -/
def isWs (c : Char) : Bool :=
  c = ' ' || c = '\t' || c = '\r' || c = '\n'

/-- Rust `str::trim`: drop whitespace from both ends. -/
def trimChars (l : Str) : Str :=
  (l.dropWhile isWs).reverse.dropWhile isWs |>.reverse

/-- Rust `char::to_ascii_lowercase`. -/
def asciiLower (c : Char) : Char :=
  if 'A' ≤ c ∧ c ≤ 'Z' then Char.ofNat (c.toNat + 32) else c

/-- Rust `str::to_ascii_lowercase`. -/
def toLowerChars (l : Str) : Str := l.map asciiLower

/-! ## Path matcher — src/lib/path.rs

The `path_patterns` feature is taken as enabled (the configuration all the
cited claims are about); the optional `ignore_trailing_path_slash` feature is
off, matching the crate's default feature set. -/

/-- Type `PathPart` from src/lib/path.rs: a compiled route-path segment. -/
inductive PathPart where
  | Normal (s : Str)
  | Pram (s : Str)
  | Any
deriving DecidableEq, Repr

/-- Function `PathPart::from_segment` (src/lib/path.rs lines 82–98): `*`
compiles to `Any`, a brace-wrapped name to `Pram name`, anything else to
`Normal`. -/
def PathPart.from_segment (seg : Str) : PathPart :=
  if seg = ['*'] then .Any
  else if seg.head? = some '\x7b' ∧ seg.getLast? = some '\x7d' then
    .Pram (seg.drop 1 |>.dropLast)
  else .Normal seg

/-- Type `Path` from src/lib/path.rs: the raw (normalized) pattern string and
its compiled parts. -/
structure Path where
  raw : Str
  parts : List PathPart
deriving DecidableEq, Repr

/-- Function `Path::new` (src/lib/path.rs lines 16–41): prepend a `/` if
missing, then compile every `/`-separated segment with
`PathPart::from_segment`. -/
def Path.new (path : Str) : Path :=
  let path := if path.head? = some '/' then path else '/' :: path
  { raw := path, parts := (splitOnChar '/' path).map PathPart.from_segment }

/-- The loop body of `Path::match_path`: walk pattern parts and request
segments pairwise, accumulating `Pram` captures in order; a `Normal` mismatch
aborts with `none`. -/
def matchPartsAux : List (PathPart × Str) → List (Str × Str) →
    Option (List (Str × Str))
  | [], out => some out
  | (.Normal x, j) :: rest, out =>
    if x = j then matchPartsAux rest out else none
  | (.Pram x, j) :: rest, out => matchPartsAux rest (out ++ [(x, j)])
  | (.Any, _) :: rest, out => matchPartsAux rest out

/-- Function `Path::match_path` (src/lib/path.rs lines 44–69, `path_patterns`
variant): reject if the segment counts differ, else walk the zipped segments
and return the captures. -/
def Path.match_path (p : Path) (path : Str) : Option (List (Str × Str)) :=
  let segs := splitOnChar '/' path
  if segs.length ≠ p.parts.length then none
  else matchPartsAux (p.parts.zip segs) []

/-! ## URL codec — src/lib/internal/encoding/url.rs -/

/-- Value of one hex digit, as accepted by Rust `from_str_radix(_, 16)`
(upper- and lowercase letters both allowed). -/
def hexDigitVal (c : Char) : Option Nat :=
  if '0' ≤ c ∧ c ≤ '9' then some (c.toNat - '0'.toNat)
  else if 'a' ≤ c ∧ c ≤ 'f' then some (c.toNat - 'a'.toNat + 10)
  else if 'A' ≤ c ∧ c ≤ 'F' then some (c.toNat - 'A'.toNat + 10)
  else none

/-- Rust `u8::from_str_radix(s, 16)` on a two-character string `[a, b]`, the
only shape `decode` ever builds: an optional leading sign is accepted (`+5`
parses as 5, `-0` as 0, any other negative value overflows `u8`), otherwise
both characters must be hex digits.  A two-digit value always fits in `u8`. -/
def fromStrRadix16u8 (a b : Char) : Option Nat :=
  if a = '+' then hexDigitVal b
  else if a = '-' then
    match hexDigitVal b with
    | some 0 => some 0
    | _ => none
  else do
    let x ← hexDigitVal a
    let y ← hexDigitVal b
    pure (16 * x + y)

/-- Function `decode` (src/lib/internal/encoding/url.rs lines 7–25): `+`
becomes a space, `%` consumes two characters parsed as a hex byte (failing
the whole decode if absent or unparseable, via `?`), everything else passes
through.  The decoded byte is pushed with `as char`, i.e. `Char.ofNat`. -/
def decode : Str → Option Str
  | [] => some []
  | c :: rest =>
    if c = '+' then (decode rest).map (' ' :: ·)
    else if c = '%' then
      match rest with
      | a :: b :: rest' =>
        match fromStrRadix16u8 a b with
        | some v => (decode rest').map (Char.ofNat v :: ·)
        | none => none
      | _ => none
    else (decode rest).map (c :: ·)

/-- Constant `ALLOWED_CHARS` from `encode` (src/lib/internal/encoding/url.rs
lines 31–33). -/
def ALLOWED_CHARS : Str :=
  "ABCDEFGHIJKLMNOPQRSTUVWXYZabcdefghijklmnopqrstuvwxyz0123456789-._~".data

/-- Uppercase hex digit for a value below 16, as produced by Rust's
two-digit uppercase-hex formatting of a `u8`. -/
def hexDigitUpper (n : Nat) : Char :=
  "0123456789ABCDEF".data.getD n '0'

/-- Output of `encode` for one character (src/lib/internal/encoding/url.rs
lines 37–43): an ASCII character in `ALLOWED_CHARS` passes through; anything
else is truncated to a byte (Rust `as u8`, hence `% 256`) and emitted as `%`
plus two uppercase hex digits. -/
def encodeChar (c : Char) : Str :=
  if c.toNat ≤ 127 ∧ c ∈ ALLOWED_CHARS then [c]
  else ['%', hexDigitUpper (c.toNat % 256 / 16), hexDigitUpper (c.toNat % 256 % 16)]

/-- Function `encode` (src/lib/internal/encoding/url.rs lines 30–46). -/
def encode (url : Str) : Str :=
  url.flatMap encodeChar

/-! ## HTTP headers — src/lib/http/header.rs -/

/-- Type `HeaderType` (src/lib/http/header.rs lines 286–358): the closed set
of recognized header names, with a `Custom` escape for everything else. -/
inductive HeaderType where
  | Accept
  | AcceptCharset
  | AcceptEncoding
  | AcceptLanguage
  | Connection
  | ContentEncoding
  | ContentLength
  | ContentType
  | Cookie
  | Date
  | Host
  | Location
  | Referer
  | Server
  | SetCookie
  | TransferEncoding
  | Upgrade
  | UserAgent
  | Via
  | XForwardedFor
  | Custom (s : Str)
deriving DecidableEq, Repr

/-- Function `HeaderType::from_str` (src/lib/http/header.rs lines 374–398):
case-insensitive lookup in the closed name table, defaulting to `Custom`
with the original (non-lowercased) string. -/
def HeaderType.from_str (s : Str) : HeaderType :=
  let l := toLowerChars s
  if l = "accept".data then .Accept
  else if l = "accept-charset".data then .AcceptCharset
  else if l = "accept-encoding".data then .AcceptEncoding
  else if l = "accept-language".data then .AcceptLanguage
  else if l = "connection".data then .Connection
  else if l = "content-encoding".data then .ContentEncoding
  else if l = "content-length".data then .ContentLength
  else if l = "content-type".data then .ContentType
  else if l = "cookie".data then .Cookie
  else if l = "date".data then .Date
  else if l = "host".data then .Host
  else if l = "location".data then .Location
  else if l = "referer".data then .Referer
  else if l = "server".data then .Server
  else if l = "set-cookie".data then .SetCookie
  else if l = "transfer-encoding".data then .TransferEncoding
  else if l = "upgrade".data then .Upgrade
  else if l = "user-agent".data then .UserAgent
  else if l = "via".data then .Via
  else if l = "x-forwarded-for".data then .XForwardedFor
  else .Custom s

/-- Display form of a `HeaderType` (src/lib/http/header.rs lines 401–432). -/
def HeaderType.toStr : HeaderType → Str
  | .Accept => "Accept".data
  | .AcceptCharset => "Accept-Charset".data
  | .AcceptEncoding => "Accept-Encoding".data
  | .AcceptLanguage => "Accept-Language".data
  | .Connection => "Connection".data
  | .ContentEncoding => "Content-Encoding".data
  | .ContentLength => "Content-Length".data
  | .ContentType => "Content-Type".data
  | .Cookie => "Cookie".data
  | .Date => "Date".data
  | .Host => "Host".data
  | .Location => "Location".data
  | .Referer => "Referer".data
  | .Server => "Server".data
  | .SetCookie => "Set-Cookie".data
  | .TransferEncoding => "Transfer-Encoding".data
  | .Upgrade => "Upgrade".data
  | .UserAgent => "User-Agent".data
  | .Via => "Via".data
  | .XForwardedFor => "X-Forwarded-For".data
  | .Custom s => s

/-- Type `Header` (src/lib/http/header.rs lines 13–18): a normalized name
and a value. -/
structure Header where
  name : HeaderType
  value : Str
deriving DecidableEq, Repr

/-- Function `Header::new` (src/lib/http/header.rs lines 56–61): the name
goes through `Into<HeaderType>`, i.e. `HeaderType::from_str`. -/
def Header.new (name value : Str) : Header :=
  ⟨HeaderType.from_str name, value⟩

deriving instance DecidableEq for Except

/-- Rust `str::splitn(2, sep)` for a one-character separator: at most two
pieces, the second piece keeping any further separators verbatim. -/
def splitn2 (sep : Char) (l : Str) : List Str :=
  match l.dropWhile (· ≠ sep) with
  | [] => [l.takeWhile (· ≠ sep)]
  | _ :: rest => [l.takeWhile (· ≠ sep), rest]

/-! ## Error taxonomy — src/lib/error.rs -/

/-- Type `ParseError` (src/lib/error.rs lines 41–65). -/
inductive ParseError where
  | NoSeparator
  | NoMethod
  | NoPath
  | NoVersion
  | NoRequestLine
  | InvalidQuery
  | InvalidMethod
  | InvalidHeader
deriving DecidableEq, Repr

/-- Type `StreamError` (src/lib/error.rs lines 69–72). -/
inductive StreamError where
  | UnexpectedEof
deriving DecidableEq, Repr

/-- Function `Header::from_string` (src/lib/http/header.rs lines 73–92):
split at the first `:` with `splitn(2, ':')`; fewer than two pieces (no `:`
at all) is `ParseError::InvalidHeader`; otherwise both pieces are trimmed
and the name is normalized through `Into<HeaderType>`.  The crate-level
`Error` wrapper around `ParseError` is applied by the caller-side `From`
instance; the error payload here is the `ParseError` itself. -/
def Header.from_string (header : Str) : Except ParseError Header :=
  match splitn2 ':' header with
  | [n, v] => .ok ⟨HeaderType.from_str (trimChars n), trimChars v⟩
  | _ => .error ParseError.InvalidHeader

/-- Display form of a `Header` (src/lib/http/header.rs lines 257–269):
`name: value`. -/
def Header.toStr (h : Header) : Str :=
  h.name.toStr ++ [':', ' '] ++ h.value

/-- Function `headers_to_string` (src/lib/http/header.rs lines 273–280):
fold every header into `name: value\r\n` and slice off the final two
characters.  The Rust slice `out[..out.len() - 2]` panics by underflow when
the header list is empty (`out` is then empty); the panic is modelled as
`none`.  Byte and character indexing agree on the last two characters, which
are always the ASCII `\r\n`. -/
def headers_to_string (headers : List Header) : Option Str :=
  let out := headers.foldl (fun acc i => acc ++ i.toStr ++ ['\r', '\n']) []
  if out.length < 2 then none
  else some (out.take (out.length - 2))

/-! ## Request / Response data model

The files `method.rs`, `content_type.rs`, `response.rs` and `route.rs` of
this repository are not under src/; the definitions below marked
"Modelled from the spec" follow the spec's data model (§3) and the way the
sources under src/ consume them. -/

/-- Modelled from the spec: `method.rs` is not under src/.  A request method
is an enumerated verb or a custom token; `ANY` is the route filter that
accepts every method.  Its display form (used by the `Cannot <METHOD> <path>`
bodies) is the verb's name. -/
inductive Method where
  | GET
  | POST
  | PUT
  | DELETE
  | OPTIONS
  | HEAD
  | PATCH
  | TRACE
  | CUSTOM (s : Str)
  | ANY
deriving DecidableEq, Repr

/-- Display form of a `Method`. -/
def Method.toStr : Method → Str
  | .GET => "GET".data
  | .POST => "POST".data
  | .PUT => "PUT".data
  | .DELETE => "DELETE".data
  | .OPTIONS => "OPTIONS".data
  | .HEAD => "HEAD".data
  | .PATCH => "PATCH".data
  | .TRACE => "TRACE".data
  | .CUSTOM s => s
  | .ANY => "ANY".data

/-- Modelled from the spec: `content_type.rs` is not under src/.  Only the
`TXT` content type is reachable from the verified claims. -/
inductive Content where
  | TXT
deriving DecidableEq, Repr

/-- Modelled from the spec: `response.rs` is not under src/.  The
connection-control flag variants the keep-alive logic of
src/lib/internal/handle.rs compares against (`None`, `Close`, `End`). -/
inductive ResponseFlag where
  | None
  | Close
  | End
deriving DecidableEq, Repr

/-- Modelled from the spec: `response.rs` is not under src/.  A response per
the spec's data model: numeric status, optional custom reason phrase,
headers, body, optional content type, connection-control flag. -/
structure Response where
  status : Nat
  reason : Option Str
  headers : List Header
  body : Str
  content : Option Content
  flag : ResponseFlag
deriving DecidableEq, Repr

/-- Builder `Response::new`: status 200, everything else empty. -/
def Response.new : Response :=
  ⟨200, none, [], [], none, .None⟩

/-- Builder `Response::status`. -/
def Response.setStatus (r : Response) (s : Nat) : Response :=
  { r with status := s }

/-- Builder `Response::text`. -/
def Response.setText (r : Response) (t : Str) : Response :=
  { r with body := t }

/-- Builder `Response::content`. -/
def Response.setContent (r : Response) (c : Content) : Response :=
  { r with content := some c }

/-- Builder `Response::header`: appends one header. -/
def Response.addHeader (r : Response) (h : Header) : Response :=
  { r with headers := r.headers ++ [h] }

/-- Type `Request` (src/lib/request.rs lines 11–40) with the `path_patterns`
feature on and `cookies` off: method, path, captured path parameters, query
pairs, headers, body bytes, peer address, raw bytes. -/
structure Request where
  method : Method
  path : Str
  path_prams : List (Str × Str)
  query : List (Str × Str)
  headers : List Header
  body : List Nat
  address : Str
  raw_data : List Nat
deriving DecidableEq, Repr

/-! ## Routing and middleware — src/lib/server.rs -/

/-- Outcome of one route-handler invocation.  A Rust handler either returns
a response or panics; `panic::catch_unwind` (src/lib/server.rs line 708)
reifies the panic into a value, and line 711 downcasts the payload with
`downcast_ref::<&str>` (`none` models a non-`&str` payload). -/
inductive HandlerOutcome where
  | ok (res : Response)
  | panicked (payload : Option Str)

/-- A route handler. -/
abbrev Handler := Request → HandlerOutcome

/-- Modelled from the spec: `route.rs` is not under src/.  A route per the
spec's data model — method filter, compiled path, handler — with
`Route::new` compiling the raw path string via `Path::new` (its callers in
src/lib/server.rs pass the raw string, and the routing loop reads
`route.path` as a compiled `Path`). -/
structure Route where
  method : Method
  path : Path
  handler : Handler

/-- Constructor `Route::new` as called by `Server::route` and friends. -/
def Route.new (method : Method) (path : Str) (handler : Handler) : Route :=
  ⟨method, Path.new path, handler⟩

/-- The route-acceptance test of the routing loop (src/lib/server.rs
lines 696–697): `req.method == route.method || route.method == Method::ANY`,
and the compiled path matches the request path. -/
def routeAccepts (route : Route) (req : Request) : Bool :=
  decide (req.method = route.method ∨ route.method = Method.ANY)
    && (route.path.match_path req.path).isSome

/-- The body of the routing loop's match arm (src/lib/server.rs lines
698–717): store the captured path parameters in the request, invoke the
handler inside the `catch_unwind` boundary, and on a panic delegate to the
error handler with the request and the panic payload (the empty string when
the payload was not a `&str`). -/
def invokeRoute (error_handler : Request → Str → Response) (req : Request)
    (route : Route) : Response :=
  let req := { req with path_prams := (route.path.match_path req.path).getD [] }
  match route.handler req with
  | .ok res => res
  | .panicked payload => error_handler req (payload.getD [])

/-- One iteration of the routing loop: the acceptance test guarding the
match arm. -/
def routeStep (error_handler : Request → Str → Response) (req : Request)
    (route : Route) : Option Response :=
  if routeAccepts route req then some (invokeRoute error_handler req route)
  else none

/-- The 404 synthesized when no route matches (src/lib/server.rs lines
727–731). -/
def noRouteResponse (req : Request) : Response :=
  Response.new.setStatus 404
    |>.setText ("Cannot ".data ++ req.method.toStr ++ [' '] ++ req.path)
    |>.addHeader (Header.new "Content-Type".data "text/plain".data)

/-- The routing phase of `handle_connection` (src/lib/server.rs lines
694–731): walk the routes in reverse registration order (`iter().rev()`),
return the first accepted route's boundary-wrapped handler response, else
the synthesized 404. -/
def resolveRoutes (error_handler : Request → Str → Response)
    (routes : List Route) (req : Request) : Response :=
  match routes.reverse.findSome? (routeStep error_handler req) with
  | some res => res
  | none => noRouteResponse req

/-- A middleware (src/lib/server.rs line 47):
`Fn(&Request) -> Option<Response>`; `Some` sends that response immediately,
`None` continues to the next middleware and then the routes. -/
abbrev MiddlewareFn := Request → Option Response

/-- The middleware phase of `handle_connection` (src/lib/server.rs lines
685–692): walk the middleware in reverse registration order and return the
first `Some` response. -/
def runMiddleware (mws : List MiddlewareFn) (req : Request) : Option Response :=
  mws.reverse.findSome? (fun m => m req)

/-- The dispatch part of `handle_connection` (src/lib/server.rs lines
685–731): middleware first; if none of them sends, the routing phase. -/
def dispatch (mws : List MiddlewareFn) (error_handler : Request → Str → Response)
    (routes : List Route) (req : Request) : Response :=
  match runMiddleware mws req with
  | some res => res
  | none => resolveRoutes error_handler routes req

/-- The default `error_handler` installed by `Server::new`
(src/lib/server.rs lines 109–115): a 500 response echoing the failure text
after the fixed prefix. -/
def defaultErrorHandler (_req : Request) (err : Str) : Response :=
  Response.new.setStatus 500
    |>.setText ("Internal Server Error :/\nError: ".data ++ err)
    |>.addHeader (Header.new "Content-Type".data "text/plain".data)

/-- The response-header assembly of `Server::start` (src/lib/server.rs lines
173–178): handler-set headers, then the server's default headers, then an
unconditionally appended computed `Content-Length`. -/
def startHeaders (res : Response) (default_headers : List Header) : List Header :=
  res.headers ++ default_headers
    ++ [Header.new "Content-Length".data (Nat.toDigits 10 res.body.length)]

/-! ## Crate error type and `error_response` — src/lib/error.rs,
src/lib/internal/handle.rs -/

mutual

/-- Type `Error` (src/lib/error.rs lines 12–27).  The `Startup` variant
matched by src/lib/internal/handle.rs does not exist in this revision of
src/lib/error.rs; only `None` occupies the unreachable arm. -/
inductive Error where
  | Stream (e : StreamError)
  | Handle (e : HandleError)
  | Parse (e : ParseError)
  | Io (s : Str)
  | None

/-- Type `HandleError` (src/lib/error.rs lines 31–37): a routing miss
carrying the method and path, or a panic carrying the boxed
`Result<Request>` in flight plus the panic message. -/
inductive HandleError where
  | NotFound (method : Method) (path : Str)
  | Panic (req : ReqResult) (msg : Str)

/-- Rust `Result<Request>` (the alias of src/lib/error.rs line 8) as carried
inside `HandleError::Panic`. -/
inductive ReqResult where
  | ok (req : Request)
  | err (e : Error)

end

/-- Modelled from the spec: the generic `Server<State>` struct consumed by
src/lib/internal/handle.rs is not under src/.  Only the fields
`error_response` reads are modelled: the shared application state and the
user-overridable error handler taking `(state, partial request, message)`. -/
structure ServerV2 (State : Type) where
  state : State
  error_handler : State → ReqResult → Str → Response

/-- The per-variant message of `error_response`'s `Parse` arm
(src/lib/internal/handle.rs lines 142–151). -/
def parseErrorMsg : ParseError → Str
  | .NoSeparator => "No separator".data
  | .NoMethod => "No method".data
  | .NoPath => "No path".data
  | .NoVersion => "No HTTP version".data
  | .NoRequestLine => "No request line".data
  | .InvalidQuery => "Invalid query".data
  | .InvalidHeader => "Invalid header".data
  | .InvalidMethod => "Invalid method".data

/-- The 404 synthesized by `handle` when no route matches
(src/lib/internal/handle.rs lines 104–112): status `Status::NotFound`,
body `Cannot <METHOD> <path>`, content `Content::TXT`. -/
def noRouteResponseV2 (method : Method) (path : Str) : Response :=
  Response.new.setStatus 404
    |>.setText ("Cannot ".data ++ method.toStr ++ [' '] ++ path)
    |>.setContent .TXT

/-- Function `error_response` (src/lib/internal/handle.rs lines 131–163).
The `Error::None` arm is `unreachable!()` in the source; the panic is
modelled as `none`, every reachable arm returns `some` response. -/
def error_response {State : Type} (err : Error) (server : ServerV2 State) :
    Option Response :=
  match err with
  | .None => none
  | .Stream .UnexpectedEof =>
    some (Response.new.setStatus 400 |>.setText "Unexpected EOF".data)
  | .Parse e =>
    some (Response.new.setStatus 400 |>.setText (parseErrorMsg e))
  | .Handle (.NotFound method path) =>
    some (Response.new.setStatus 404
      |>.setText ("Cannot ".data ++ method.toStr ++ [' '] ++ path)
      |>.setContent .TXT)
  | .Handle (.Panic r msg) =>
    some (server.error_handler server.state r msg)
  | .Io s =>
    some (Response.new.setStatus 500 |>.setText s)

/-! ## Connection keep-alive decision — src/lib/internal/handle.rs -/

/-- What the connection loop does with the socket once a response cycle has
completed. -/
inductive ConnAction where
  | endAbandon
  | shutdownClose
  | loopBack
deriving DecidableEq, Repr

/-- The post-response keep-alive decision of `handle`
(src/lib/internal/handle.rs lines 114–125): flag `End` breaks out of the
loop immediately with no shutdown (`endAbandon`); otherwise
`!keep_alive || flag == ResponseFlag::Close || !this.keep_alive` shuts the
socket down and breaks (`shutdownClose`); otherwise the loop continues with
the next request on the same socket (`loopBack`). -/
def loopDecision (keepAliveReq serverKeepAlive : Bool) (flag : ResponseFlag) :
    ConnAction :=
  if flag = .End then .endAbandon
  else if !keepAliveReq || flag = .Close || !serverKeepAlive then .shutdownClose
  else .loopBack

/-! ## Spec-side characterizations

Definitions in this section follow the words of the spec / claims, to be
compared against the source-derived definitions above. -/

/-- Claim C1's description of route resolution: walking the table in reverse
registration order and taking the first accepted route is taking the **last
registered** accepted route. -/
def lastAcceptedRoute (routes : List Route) (req : Request) : Option Route :=
  (routes.filter (routeAccepts · req)).getLast?

/-- Claim C5's matching condition, in the spec's §4.2 wording: every
`Normal` pattern segment must equal the corresponding request segment, and
`Pram` segments always match. -/
def normalsAgree (parts : List PathPart) (segs : List Str) : Bool :=
  (parts.zip segs).all fun pj =>
    match pj with
    | (.Normal x, j) => decide (x = j)
    | _ => true

/-- Claim C5's capture list: each `Pram` segment's name paired with the
corresponding request segment, in pattern order. -/
def specCaptures (parts : List PathPart) (segs : List Str) : List (Str × Str) :=
  (parts.zip segs).filterMap fun pj =>
    match pj with
    | (.Pram x, j) => some (x, j)
    | _ => none

/-! ## Concrete fixtures used by witnesses -/

/-- A concrete response body "A". -/
def respA : Response := Response.new.setText "A".data

/-- A concrete response body "B". -/
def respB : Response := Response.new.setText "B".data

/-- A concrete GET request for `/`. -/
def reqRoot : Request :=
  ⟨.GET, "/".data, [], [], [], [], [], []⟩

/-- A catch-all route `(ANY, "*")` answering `respA`. -/
def routeCatchAll : Route := Route.new .ANY "*".data (fun _ => .ok respA)

/-- A route `(GET, "/")` answering `respB`. -/
def routeRootGet : Route := Route.new .GET "/".data (fun _ => .ok respB)

/-- A route `(GET, "/")` whose handler panics with the `&str` payload
`boom`. -/
def routePanic : Route :=
  Route.new .GET "/".data (fun _ => .panicked (some "boom".data))

/-- A v2 server over trivial state with a trivial error handler. -/
def unitServer : ServerV2 Unit := ⟨(), fun _ _ _ => Response.new⟩

/-- A middleware that always sends `respA`. -/
def mwA : MiddlewareFn := fun _ => some respA

/-- A middleware that always sends `respB`. -/
def mwB : MiddlewareFn := fun _ => some respB

end Afire

namespace Afire

/-! # Theorems -/

/-! ## C4 — trailing `*` wildcard -/

/-- A trailing `(Any, s)` pair contributes nothing to the match walk: `Any`
always matches its (single) segment and records no capture. -/
theorem matchPartsAux_append_any (l : List (PathPart × Str)) (s : Str)
    (out : List (Str × Str)) :
    matchPartsAux (l ++ [(.Any, s)]) out = matchPartsAux l out := by
  induction l generalizing out with
  | nil => rfl
  | cons hd tl ih =>
    obtain ⟨p, seg⟩ := hd
    cases p <;> simp [matchPartsAux, ih]

/-- C4 (amended): a final `*` segment in a compiled pattern matches exactly
**one** arbitrary request segment and records no captures; matching still
requires the request path to have exactly as many `/`-separated segments as
the pattern (one more than the pattern's prefix), and any other segment
count — in particular a longer path such as `/files/a/b/c` against
`/files/*` — is rejected.  When the counts agree, the result is exactly the
walk over the pattern's prefix, so the wildcard contributes no capture. -/
theorem c4_trailing_wildcard (p : Path) (pre : List PathPart)
    (hparts : p.parts = pre ++ [.Any]) (path : Str) :
    (∀ segs s, splitOnChar '/' path = segs ++ [s] → segs.length = pre.length →
      p.match_path path = matchPartsAux (pre.zip segs) [])
    ∧ ((splitOnChar '/' path).length ≠ pre.length + 1 →
      p.match_path path = none) := by
  constructor
  · intro segs s hsplit hlen
    unfold Path.match_path
    rw [hsplit, hparts]
    have hlen2 : (segs ++ [s]).length = (pre ++ [PathPart.Any]).length := by
      simp [hlen]
    rw [if_neg (by simp [hlen2]), List.zip_append hlen.symm]
    simpa using matchPartsAux_append_any (pre.zip segs) s []
  · intro hne
    unfold Path.match_path
    rw [if_pos]
    rw [hparts]
    simpa using hne

/-- C4 fails as stated: `/files/*` compiles with a final `*` segment, yet it
does **not** match `/files/a/b/c` (the claim says it matches with empty
captures); it does match the one-extra-segment path `/files/a`, with empty
captures. -/
theorem c4_counterexample :
    (Path.new "/files/*".data).parts.getLast? = some PathPart.Any
    ∧ (Path.new "/files/*".data).match_path "/files/a/b/c".data = none
    ∧ (Path.new "/files/*".data).match_path "/files/a".data = some [] := by
  decide

/-- Witness: the amended C4 theorem applied to `/files/*` and `/files/x`. -/
theorem c4_witness :
    (Path.new "/files/*".data).match_path "/files/x".data = some [] := by
  have h := (c4_trailing_wildcard (Path.new "/files/*".data)
    [PathPart.Normal [], PathPart.Normal "files".data] (by decide)
    "/files/x".data).1 [[], "files".data] "x".data (by decide) (by decide)
  exact h.trans (by decide)

/-! ## C5 — `Normal` / `Pram` matching -/

/-- Characterization of the match walk on `Any`-free pair lists: it succeeds
exactly when every `Normal` pair agrees, and then the result extends the
accumulator with the `Pram` pairs in order. -/
theorem matchPartsAux_characterization (l : List (PathPart × Str))
    (hno : ∀ pj ∈ l, pj.1 ≠ PathPart.Any) (out caps : List (Str × Str)) :
    matchPartsAux l out = some caps ↔
      ((l.all fun pj => match pj with
          | (.Normal x, j) => decide (x = j)
          | _ => true) = true
        ∧ caps = out ++ l.filterMap fun pj => match pj with
          | (.Pram x, j) => some (x, j)
          | _ => none) := by
  induction l generalizing out with
  | nil => simp [matchPartsAux, eq_comm]
  | cons hd tl ih =>
    have htl : ∀ pj ∈ tl, pj.1 ≠ PathPart.Any :=
      fun pj hm => hno pj (List.mem_cons_of_mem _ hm)
    obtain ⟨p, seg⟩ := hd
    cases p with
    | Normal x =>
      by_cases hx : x = seg
      · subst hx
        simp [matchPartsAux, ih htl]
      · simp [matchPartsAux, hx]
    | Pram x =>
      simp [matchPartsAux, ih htl, List.append_assoc]
    | Any =>
      exact absurd rfl (hno (PathPart.Any, seg) (List.mem_cons_self _ _))

/-- C5: for a compiled pattern containing only `Normal` and `Pram` segments,
matching a request path returns `some` exactly when the path has as many
`/`-separated segments as the pattern and every `Normal` segment equals the
corresponding request segment; the capture list then pairs each `Pram`
segment's name with the corresponding request segment, in order. -/
theorem c5_normal_param_matching (p : Path) (path : Str)
    (hno : ∀ part ∈ p.parts, part ≠ PathPart.Any)
    (caps : List (Str × Str)) :
    p.match_path path = some caps ↔
      ((splitOnChar '/' path).length = p.parts.length
        ∧ normalsAgree p.parts (splitOnChar '/' path) = true
        ∧ caps = specCaptures p.parts (splitOnChar '/' path)) := by
  unfold Path.match_path
  by_cases hlen : (splitOnChar '/' path).length = p.parts.length
  · have hzip : ∀ pj ∈ p.parts.zip (splitOnChar '/' path),
        pj.1 ≠ PathPart.Any := by
      intro pj hm he
      exact hno pj.1 (List.of_mem_zip hm).1 he
    rw [if_neg (by simp [hlen])]
    rw [matchPartsAux_characterization _ hzip]
    simp [normalsAgree, specCaptures, hlen]
  · rw [if_pos (by simpa using hlen)]
    simp [hlen]

/-- Witness: C5 applied to the pattern `/greet/(name)` — matching `/greet/Sam`
captures `name = Sam`; `/greet/Sam/extra` does not match. -/
theorem c5_witness :
    (Path.new "/greet/\x7bname\x7d".data).match_path "/greet/Sam".data
      = some [("name".data, "Sam".data)]
    ∧ (Path.new "/greet/\x7bname\x7d".data).match_path
        "/greet/Sam/extra".data = none := by
  refine ⟨(c5_normal_param_matching _ _ (by decide) _).mpr (by decide), ?_⟩
  decide

/-! ## C1 — last-registered-wins routing -/

/-- The reverse walk with `routeStep` returns exactly the boundary-wrapped
invocation of the last registered accepted route. -/
theorem findSome?_reverse_routeStep (er : Request → Str → Response)
    (req : Request) (routes : List Route) :
    routes.reverse.findSome? (routeStep er req)
      = (lastAcceptedRoute routes req).map (invokeRoute er req) := by
  induction routes using List.reverseRecOn with
  | nil => rfl
  | append_singleton l a ih =>
    rw [List.reverse_append]
    simp only [List.reverse_cons, List.reverse_nil, List.nil_append,
      List.singleton_append, List.findSome?_cons]
    unfold lastAcceptedRoute at ih ⊢
    rw [List.filter_append]
    cases h : routeAccepts a req with
    | false =>
      simp only [routeStep, h, if_neg Bool.false_ne_true]
      simpa [List.filter_cons, h] using ih
    | true =>
      simp [routeStep, h, List.filter_cons, List.getLast?_concat]

/-- C1: route resolution invokes the handler of the **last registered**
route whose method filter accepts the request's method (`ANY` accepts every
method) and whose compiled path matches — equivalently the first accepted
route of the reverse registration walk; consequently, whenever two
registered routes both accept a request, the chosen route lies at or after
the later one, so the earlier route is never the one invoked.  With no
accepted route, the synthesized 404 is returned. -/
theorem c1_resolution (er : Request → Str → Response) (routes : List Route)
    (req : Request) :
    (∀ route : Route, routeAccepts route req = true ↔
      ((req.method = route.method ∨ route.method = Method.ANY)
        ∧ (route.path.match_path req.path).isSome = true))
    ∧ (resolveRoutes er routes req
        = match lastAcceptedRoute routes req with
          | some r => invokeRoute er req r
          | none => noRouteResponse req)
    ∧ (∀ (l1 : List Route) (r1 : Route) (l2 : List Route) (r2 : Route)
        (l3 : List Route),
        routes = l1 ++ r1 :: (l2 ++ r2 :: l3) →
        routeAccepts r1 req = true → routeAccepts r2 req = true →
        ∃ r, (r ∈ r2 :: l3 ∧ routeAccepts r req = true)
          ∧ lastAcceptedRoute routes req = some r
          ∧ resolveRoutes er routes req = invokeRoute er req r) := by
  have hmain : resolveRoutes er routes req
      = match lastAcceptedRoute routes req with
        | some r => invokeRoute er req r
        | none => noRouteResponse req := by
    unfold resolveRoutes
    rw [findSome?_reverse_routeStep]
    cases lastAcceptedRoute routes req <;> rfl
  refine ⟨?_, hmain, ?_⟩
  · intro route
    simp [routeAccepts]
  · intro l1 r1 l2 r2 l3 heq h1 h2
    have hassoc : routes = (l1 ++ r1 :: l2) ++ r2 :: l3 := by
      simp [heq]
    have hfilter : lastAcceptedRoute routes req
        = ((l1 ++ r1 :: l2).filter (routeAccepts · req)
            ++ r2 :: l3.filter (routeAccepts · req)).getLast? := by
      rw [hassoc]
      unfold lastAcceptedRoute
      rw [List.filter_append, List.filter_cons, if_pos h2]
    obtain ⟨r, hr⟩ : ∃ r,
        ((l1 ++ r1 :: l2).filter (routeAccepts · req)
          ++ r2 :: l3.filter (routeAccepts · req)).getLast? = some r := by
      cases hx : ((l1 ++ r1 :: l2).filter (routeAccepts · req)
          ++ r2 :: l3.filter (routeAccepts · req)).getLast? with
      | none => simp at hx
      | some r => exact ⟨r, rfl⟩
    have hlast : lastAcceptedRoute routes req = some r := hfilter.trans hr
    have hsuffix : r ∈ r2 :: l3.filter (routeAccepts · req) := by
      obtain ⟨y, hy⟩ : ∃ y,
          (r2 :: l3.filter (routeAccepts · req)).getLast? = some y := by
        cases hx : (r2 :: l3.filter (routeAccepts · req)).getLast? with
        | none => simp at hx
        | some y => exact ⟨y, rfl⟩
      have hor := @List.getLast?_append _
        ((l1 ++ r1 :: l2).filter (routeAccepts · req))
        (r2 :: l3.filter (routeAccepts · req))
      rw [hr, hy, Option.or_some] at hor
      exact List.mem_of_getLast?_eq_some
        (by rw [hy, ← Option.some.inj hor])
    have hrmem : r ∈ r2 :: l3 ∧ routeAccepts r req = true := by
      rcases List.mem_cons.1 hsuffix with hEq | hIn
      · subst hEq; exact ⟨List.mem_cons_self _ _, h2⟩
      · have := List.mem_filter.1 hIn
        exact ⟨List.mem_cons_of_mem _ this.1, this.2⟩
    refine ⟨r, hrmem, hlast, ?_⟩
    rw [hmain, hlast]

/-- Witness: C1 applied to a catch-all `(ANY, "*")` registered first and a
`(GET, "/")` route registered second; a GET for `/` is answered by the
later route's handler. -/
theorem c1_witness :
    resolveRoutes defaultErrorHandler [routeCatchAll, routeRootGet] reqRoot
      = respB := by
  obtain ⟨r, ⟨hmem, _⟩, _, heq⟩ :=
    (c1_resolution defaultErrorHandler [routeCatchAll, routeRootGet]
      reqRoot).2.2 [] routeCatchAll [] routeRootGet [] rfl
      (by decide) (by decide)
  have hr : r = routeRootGet := by simpa using hmem
  subst hr
  rw [heq]
  rfl

/-! ## C8 — pre-middleware order and short-circuit -/

/-- C8: the middleware chain runs before route resolution in reverse
registration order; if a middleware returns `Some` response and every
middleware registered after it returns `None`, that response is the
dispatch result for every route table and error handler — no route handler
and no middleware registered earlier can affect the outcome; and if every
middleware returns `None`, dispatch proceeds to route resolution. -/
theorem c8_middleware (req : Request) :
    (∀ (l1 l2 : List MiddlewareFn) (m : MiddlewareFn) (res : Response),
      m req = some res → (∀ m2 ∈ l2, m2 req = none) →
      runMiddleware (l1 ++ m :: l2) req = some res
        ∧ ∀ (er : Request → Str → Response) (routes : List Route),
          dispatch (l1 ++ m :: l2) er routes req = res)
    ∧ (∀ mws : List MiddlewareFn, (∀ m2 ∈ mws, m2 req = none) →
      ∀ (er : Request → Str → Response) (routes : List Route),
        dispatch mws er routes req = resolveRoutes er routes req) := by
  constructor
  · intro l1 l2 m res hm hl2
    have hrun : runMiddleware (l1 ++ m :: l2) req = some res := by
      unfold runMiddleware
      rw [List.reverse_append, List.findSome?_append, List.reverse_cons,
        List.findSome?_append]
      have h2 : l2.reverse.findSome? (fun f => f req) = none := by
        rw [List.findSome?_eq_none_iff]
        intro x hx
        exact hl2 x (by simpa using hx)
      simp [h2, hm]
    refine ⟨hrun, fun er routes => ?_⟩
    unfold dispatch
    rw [hrun]
  · intro mws hall er routes
    unfold dispatch runMiddleware
    have hnone : mws.reverse.findSome? (fun f => f req) = none := by
      rw [List.findSome?_eq_none_iff]
      intro x hx
      exact hall x (by simpa using hx)
    rw [hnone]

/-- Witness: C8 with two always-sending middlewares; the one registered
last runs first and its response wins, for an arbitrary route table. -/
theorem c8_witness :
    dispatch [mwA, mwB] defaultErrorHandler [routeRootGet] reqRoot = respB :=
  ((c8_middleware reqRoot).1 [mwA] [] mwB respB rfl
    (by intro m2 h; simp at h)).2 defaultErrorHandler [routeRootGet]

/-! ## C2 — totality and shape of `error_response` -/

/-- C2: `error_response` maps every reachable `Error` variant to a concrete
response — `Stream::UnexpectedEof` to status 400, every `ParseError` variant
to status 400 with a variant-specific (injective) message body,
`HandleError::NotFound` to exactly the 404 the engine synthesizes when no
route matches (status 404, body `Cannot <METHOD> <path>`),
`HandleError::Panic` to exactly the user error handler applied to
`(state, partial request, message)`, and `Io` to status 500 — while
`Error::None` hits the `unreachable!` arm (modelled `none`). -/
theorem c2_error_response {State : Type} (server : ServerV2 State) :
    error_response Error.None server = none
    ∧ (∃ r, error_response (.Stream .UnexpectedEof) server = some r
        ∧ r.status = 400)
    ∧ (∀ e : ParseError, ∃ r, error_response (.Parse e) server = some r
        ∧ r.status = 400 ∧ r.body = parseErrorMsg e)
    ∧ Function.Injective parseErrorMsg
    ∧ (∀ (method : Method) (path : Str),
        error_response (.Handle (.NotFound method path)) server
          = some (noRouteResponseV2 method path)
        ∧ (noRouteResponseV2 method path).status = 404
        ∧ (noRouteResponseV2 method path).body
            = "Cannot ".data ++ method.toStr ++ [' '] ++ path)
    ∧ (∀ (r : ReqResult) (msg : Str),
        error_response (.Handle (.Panic r msg)) server
          = some (server.error_handler server.state r msg))
    ∧ (∀ s : Str, ∃ r, error_response (.Io s) server = some r
        ∧ r.status = 500) := by
  refine ⟨rfl, ⟨_, rfl, rfl⟩, fun e => ⟨_, rfl, rfl, rfl⟩, ?_,
    fun method path => ⟨rfl, rfl, rfl⟩, fun r msg => rfl,
    fun s => ⟨_, rfl, rfl⟩⟩
  intro a b h
  cases a <;> cases b <;> first
    | rfl
    | (exfalso; revert h; decide)

/-- Witness: C2's `ParseError` clause at `NoMethod`, and its injectivity
clause applied at a concrete pair. -/
theorem c2_witness :
    (∃ r, error_response (Error.Parse ParseError.NoMethod) unitServer
      = some r ∧ r.status = 400 ∧ r.body = parseErrorMsg ParseError.NoMethod)
    ∧ ParseError.NoSeparator = ParseError.NoSeparator :=
  ⟨(c2_error_response unitServer).2.2.1 ParseError.NoMethod,
    (c2_error_response unitServer).2.2.2.1
      (rfl : parseErrorMsg ParseError.NoSeparator
        = parseErrorMsg ParseError.NoSeparator)⟩

/-! ## C3 — panic isolation at the handler boundary -/

/-- C3: a panic inside a matched route's handler is caught at the
invocation boundary and turned into a value — `routeStep` still returns a
response, produced by the error handler applied to the in-flight request
(with its captured path parameters) and the panic message; with the default
error handler from `Server::new` the response has status 500 and its body
contains the panic message text. -/
theorem c3_panic_boundary :
    (∀ (er : Request → Str → Response) (req : Request) (route : Route)
      (payload : Option Str),
      routeAccepts route req = true →
      route.handler
          { req with path_prams := (route.path.match_path req.path).getD [] }
        = .panicked payload →
      routeStep er req route = some (er
        { req with path_prams := (route.path.match_path req.path).getD [] }
        (payload.getD [])))
    ∧ (∀ (req : Request) (msg : Str),
      (defaultErrorHandler req msg).status = 500
        ∧ msg <:+: (defaultErrorHandler req msg).body) := by
  constructor
  · intro er req route payload hacc hpanic
    unfold routeStep invokeRoute
    rw [if_pos hacc]
    simp only [hpanic]
  · intro req msg
    refine ⟨rfl, "Internal Server Error :/\nError: ".data, [], ?_⟩
    simp [defaultErrorHandler, Response.new, Response.setStatus,
      Response.setText, Response.addHeader]

/-- Witness: C3 on a `(GET, "/")` route panicking with `boom` under the
default error handler: the dispatch step yields a 500 response whose body
contains `boom`. -/
theorem c3_witness :
    routeStep defaultErrorHandler reqRoot routePanic
      = some (defaultErrorHandler
          { reqRoot with path_prams :=
              (routePanic.path.match_path reqRoot.path).getD [] }
          "boom".data)
    ∧ (defaultErrorHandler reqRoot "boom".data).status = 500
    ∧ "boom".data <:+: (defaultErrorHandler reqRoot "boom".data).body := by
  refine ⟨?_, c3_panic_boundary.2 reqRoot "boom".data⟩
  exact c3_panic_boundary.1 defaultErrorHandler reqRoot routePanic
    (some "boom".data) (by decide) rfl

/-! ## C6 — URL codec round trip and output alphabet -/

/-- Every value below 16 renders as an uppercase hex digit that reads back
to itself, lies in the hex alphabet and the pass-through alphabet, and is
not a sign character. -/
theorem hexDigitUpper_spec : ∀ n < 16,
    hexDigitVal (hexDigitUpper n) = some n
    ∧ hexDigitUpper n ∈ "0123456789ABCDEF".data
    ∧ hexDigitUpper n ∈ ALLOWED_CHARS
    ∧ hexDigitUpper n ≠ '+' ∧ hexDigitUpper n ≠ '-' := by
  decide

/-- The pass-through alphabet contains neither `+` nor `%`. -/
theorem allowed_no_plus_percent :
    ∀ c ∈ ALLOWED_CHARS, c ≠ '+' ∧ c ≠ '%' := by
  decide

/-- Decoding a character other than `+` and `%` passes it through. -/
theorem decode_cons_other (c : Char) (hplus : c ≠ '+') (hpct : c ≠ '%')
    (l : Str) : decode (c :: l) = (decode l).map (c :: ·) := by
  conv_lhs => unfold decode
  rw [if_neg hplus, if_neg hpct]

/-- Decoding `%` followed by a parseable two-character hex byte prepends
that byte as a character. -/
theorem decode_percent (a b : Char) (v : Nat)
    (hab : fromStrRadix16u8 a b = some v) (l : Str) :
    decode ('%' :: a :: b :: l) = (decode l).map (Char.ofNat v :: ·) := by
  conv_lhs => rw [show decode ('%' :: a :: b :: l)
    = match fromStrRadix16u8 a b with
      | some v => (decode l).map (Char.ofNat v :: ·)
      | none => none from rfl]
  rw [hab]

/-- The two uppercase hex digits of a byte below 256 parse back to the byte
through `from_str_radix`. -/
theorem fromStrRadix16u8_hexDigits (m : Nat) (hm : m < 256) :
    fromStrRadix16u8 (hexDigitUpper (m / 16)) (hexDigitUpper (m % 16))
      = some m := by
  have hdiv : m / 16 < 16 := Nat.div_lt_of_lt_mul (by omega)
  have hmod : m % 16 < 16 := Nat.mod_lt _ (by omega)
  have h1 := hexDigitUpper_spec _ hdiv
  have h2 := hexDigitUpper_spec _ hmod
  unfold fromStrRadix16u8
  rw [if_neg h1.2.2.2.1, if_neg h1.2.2.2.2, h1.1, h2.1]
  simp [Nat.div_add_mod]

/-- Decoding one encoded character prepends the original character,
whenever its code point fits in a byte. -/
theorem decode_encodeChar (c : Char) (h : c.toNat < 256) (l : Str) :
    decode (encodeChar c ++ l) = (decode l).map (c :: ·) := by
  unfold encodeChar
  by_cases hc : c.toNat ≤ 127 ∧ c ∈ ALLOWED_CHARS
  · rw [if_pos hc]
    obtain ⟨hp, hpc⟩ := allowed_no_plus_percent c hc.2
    exact decode_cons_other c hp hpc l
  · rw [if_neg hc]
    have hm : c.toNat % 256 = c.toNat := Nat.mod_eq_of_lt h
    rw [show (['%', hexDigitUpper (c.toNat % 256 / 16),
        hexDigitUpper (c.toNat % 256 % 16)] ++ l)
      = '%' :: hexDigitUpper (c.toNat % 256 / 16)
        :: hexDigitUpper (c.toNat % 256 % 16) :: l from rfl]
    rw [decode_percent _ _ (c.toNat % 256)
      (fromStrRadix16u8_hexDigits _ (Nat.mod_lt _ (by omega))) l]
    rw [hm, Char.ofNat_toNat]

/-- C6: decoding inverts encoding on every string whose characters fit in a
byte (printable ASCII and the Latin-1 range), and for **every** string the
encoder's output alphabet is the pass-through set plus `%`, each escape
being `%` followed by two uppercase hex digits. -/
theorem c6_url_codec :
    (∀ s : Str, (∀ c ∈ s, c.toNat < 256) → decode (encode s) = some s)
    ∧ (∀ s : Str, ∀ c ∈ encode s, c ∈ ALLOWED_CHARS ∨ c = '%')
    ∧ (∀ c : Char, ¬(c.toNat ≤ 127 ∧ c ∈ ALLOWED_CHARS) →
      encodeChar c = ['%', hexDigitUpper (c.toNat % 256 / 16),
          hexDigitUpper (c.toNat % 256 % 16)]
        ∧ hexDigitUpper (c.toNat % 256 / 16) ∈ "0123456789ABCDEF".data
        ∧ hexDigitUpper (c.toNat % 256 % 16) ∈ "0123456789ABCDEF".data) := by
  have hdivlt : ∀ n : Nat, n % 256 / 16 < 16 := by
    intro n
    have h1 : n % 256 < 256 := Nat.mod_lt _ (by omega)
    exact Nat.div_lt_of_lt_mul (by omega)
  have hmodlt : ∀ n : Nat, n % 256 % 16 < 16 := fun n =>
    Nat.mod_lt _ (by omega)
  refine ⟨?_, ?_, ?_⟩
  · intro s hs
    induction s with
    | nil => rfl
    | cons c t ih =>
      have hc : c.toNat < 256 := hs c (List.mem_cons_self _ _)
      have ht : ∀ x ∈ t, x.toNat < 256 := fun x hx =>
        hs x (List.mem_cons_of_mem _ hx)
      rw [show encode (c :: t) = encodeChar c ++ encode t from rfl]
      rw [decode_encodeChar c hc, ih ht]
      rfl
  · intro s c hc
    obtain ⟨x, hx, hcx⟩ := List.mem_flatMap.1 hc
    unfold encodeChar at hcx
    by_cases hall : x.toNat ≤ 127 ∧ x ∈ ALLOWED_CHARS
    · rw [if_pos hall] at hcx
      simp only [List.mem_singleton] at hcx
      subst hcx
      exact .inl hall.2
    · rw [if_neg hall] at hcx
      simp only [List.mem_cons, List.mem_singleton, List.not_mem_nil,
        or_false] at hcx
      rcases hcx with h | h | h
      · exact .inr h
      · subst h; exact .inl (hexDigitUpper_spec _ (hdivlt x.toNat)).2.2.1
      · subst h; exact .inl (hexDigitUpper_spec _ (hmodlt x.toNat)).2.2.1
  · intro c hc
    exact ⟨by rw [encodeChar, if_neg hc],
      (hexDigitUpper_spec _ (hdivlt c.toNat)).2.1,
      (hexDigitUpper_spec _ (hmodlt c.toNat)).2.1⟩

/-- Witness: C6's round trip on a concrete string mixing a pass-through
character, a byte-valued non-ASCII character, a space, `+` and `%`. -/
theorem c6_witness :
    decode (encode "aÿ +%".data) = some "aÿ +%".data :=
  c6_url_codec.1 "aÿ +%".data (by decide)

/-! ## C7 — keep-alive / close decision of the connection loop -/

/-- C7: after a response cycle, the connection loop continues on the same
socket exactly when the response flag is neither `End` nor `Close`, the
request asked for keep-alive, and the server's global keep-alive setting is
on; the flag `End` abandons the socket immediately with no shutdown, and in
every other terminating case the socket is shut down after the response. -/
theorem c7_keep_alive (kaReq kaServer : Bool) (flag : ResponseFlag) :
    (loopDecision kaReq kaServer flag = .loopBack ↔
      (flag ≠ .End ∧ flag ≠ .Close ∧ kaReq = true ∧ kaServer = true))
    ∧ (loopDecision kaReq kaServer flag = .endAbandon ↔ flag = .End)
    ∧ (loopDecision kaReq kaServer flag = .shutdownClose ↔
      (flag ≠ .End ∧ (flag = .Close ∨ kaReq = false ∨ kaServer = false))) := by
  cases flag <;> cases kaReq <;> cases kaServer <;> decide

/-- Witness: C7 at a keep-alive request on a keep-alive server with a plain
response — the loop serves the next request on the same socket. -/
theorem c7_witness :
    loopDecision true true ResponseFlag.None = ConnAction.loopBack :=
  (c7_keep_alive true true ResponseFlag.None).1.mpr (by decide)

/-! ## C9 — header-line parsing -/

/-- When `dropWhile p` produces a cons, its head fails `p` and belongs to
the original list. -/
theorem dropWhile_cons_head (p : Char → Bool) (l : Str) (c : Char)
    (rest : Str) (h : l.dropWhile p = c :: rest) : p c = false ∧ c ∈ l := by
  induction l with
  | nil => simp [List.dropWhile] at h
  | cons a t ih =>
    rw [List.dropWhile_cons] at h
    by_cases ha : p a
    · rw [if_pos ha] at h
      have := ih h
      exact ⟨this.1, List.mem_cons_of_mem _ this.2⟩
    · rw [if_neg ha] at h
      obtain ⟨h1, _⟩ := List.cons.inj h
      subst h1
      exact ⟨by simpa using ha, List.mem_cons_self _ _⟩

/-- C9 (amended): `Header::from_string` fails with
`ParseError::InvalidHeader` **exactly when the line contains no `:` at
all**; on any line containing a `:` it returns a header whose name is
everything before the first `:`, trimmed and normalized through
`HeaderType`, and whose value is everything after the first `:`, trimmed
(further `:` characters stay in the value). -/
theorem c9_header_from_string (l : Str) :
    (Header.from_string l = .error ParseError.InvalidHeader ↔ ':' ∉ l)
    ∧ (':' ∈ l →
      Header.from_string l
        = .ok ⟨HeaderType.from_str (trimChars (l.takeWhile (· ≠ ':'))),
            trimChars ((l.dropWhile (· ≠ ':')).tail)⟩) := by
  unfold Header.from_string splitn2
  cases h : l.dropWhile (· ≠ ':') with
  | nil =>
    have hnot : ':' ∉ l := by
      intro hc
      have := List.dropWhile_eq_nil_iff.1 h ':' hc
      simp at this
    constructor
    · simp [hnot]
    · intro hc
      exact absurd hc hnot
  | cons c rest =>
    have hfacts := dropWhile_cons_head (· ≠ ':') l c rest h
    have hcol : c = ':' := by simpa using hfacts.1
    have hc : ':' ∈ l := hcol ▸ hfacts.2
    constructor
    · constructor
      · intro habs
        simp at habs
      · intro hnot
        exact absurd hc hnot
    · intro _
      rfl

/-- C9 fails as stated: the line `a:b:c` contains two `:` characters — not
exactly one — yet `Header::from_string` accepts it, splitting at the first
`:`. -/
theorem c9_counterexample :
    "a:b:c".data.count ':' = 2
    ∧ Header.from_string "a:b:c".data
        = .ok ⟨HeaderType.Custom "a".data, "b:c".data⟩ := by
  decide

/-- Witness: the amended C9 on a well-formed header line. -/
theorem c9_witness :
    ':' ∈ "Content-Type: text/html".data
    ∧ Header.from_string "Content-Type: text/html".data
        = .ok ⟨HeaderType.ContentType, "text/html".data⟩ :=
  ⟨by decide,
    ((c9_header_from_string "Content-Type: text/html".data).2
      (by decide)).trans (by decide)⟩

/-! ## C10 — `headers_to_string` partiality and its serving-path calls -/

/-- Folding at least one header always yields at least two characters (each
header contributes its `\r\n` terminator). -/
theorem foldl_headers_length (t : List Header) : ∀ (acc : Str) (h : Header),
    2 ≤ ((h :: t).foldl
      (fun acc i => acc ++ i.toStr ++ ['\r', '\n']) acc).length := by
  induction t with
  | nil =>
    intro acc h
    simp [Header.toStr]
    omega
  | cons h2 t ih =>
    intro acc h
    rw [List.foldl_cons]
    exact ih _ h2

/-- C10: `headers_to_string` hits its underflowing slice (modelled `none`)
exactly on the empty header list, and every call made while serializing a
response in `Server::start` is on a list ending with the unconditionally
appended `Content-Length` header, hence never empty and never panicking. -/
theorem c10_headers_to_string :
    (∀ headers : List Header, headers_to_string headers = none ↔ headers = [])
    ∧ (∀ (res : Response) (dh : List Header),
      (headers_to_string (startHeaders res dh)).isSome = true) := by
  have hkey : ∀ headers : List Header,
      headers_to_string headers = none ↔ headers = [] := by
    intro headers
    cases headers with
    | nil => simp [headers_to_string]
    | cons h t =>
      have hne2 : headers_to_string (h :: t) ≠ none := by
        unfold headers_to_string
        have hlen := foldl_headers_length t [] h
        rw [if_neg (by omega)]
        simp
      simp [hne2]
  refine ⟨hkey, ?_⟩
  intro res dh
  have hne : startHeaders res dh ≠ [] := by
    simp [startHeaders]
  cases hh : headers_to_string (startHeaders res dh) with
  | none => exact absurd ((hkey _).1 hh) hne
  | some s => rfl

/-- Witness: C10's empty-list clause — the panic branch fires on `[]`. -/
theorem c10_witness : headers_to_string [] = none :=
  (c10_headers_to_string.1 []).mpr rfl

end Afire
